import Mathlib

/-!
Shallow embedding of the `track` payment-engine repository.

The per-account state machine is embedded from `src/account.rs`
(`DepositState`, `AccountState`, `AccountState::transact`), the registry from
`src/system.rs` (`AccountSystem`), and the shard router from `src/system.rs`
(`ShardedAccountSystem`).  `rust_decimal::Decimal` amounts are exact
fixed-point decimals; their additions, subtractions and comparisons are
embedded as exact integer arithmetic on `Int` (one unit = 10^-4 of a currency
unit, which is lossless for the 4-decimal-place amounts the program ingests).
`HashMap` fields are embedded as association lists with overwrite-on-insert
semantics; the `u32` chargeback counter is embedded as `Nat` (the program
increments it once per chargeback transaction and never wraps it in any
reachable execution considered here).
-/

namespace Track

/-- Embeds `DepositState` from `src/account.rs`: the per-deposit record holding
the deposited amount, a dispute flag and a chargeback flag. -/
structure DepositState where
  amount : Int
  dispute : Bool
  chargeback : Bool
deriving DecidableEq, Repr

/-- Embeds `DepositState::new`: a fresh record with both flags cleared. -/
def DepositState.new (amount : Int) : DepositState :=
  { amount := amount, dispute := false, chargeback := false }

/-- Embeds the `Transaction` enum from `src/transaction.rs`. -/
inductive Transaction where
  | deposit (client : Nat) (tx : Nat) (amount : Int)
  | withdrawal (client : Nat) (tx : Nat) (amount : Int)
  | dispute (client : Nat) (tx : Nat)
  | resolve (client : Nat) (tx : Nat)
  | chargeback (client : Nat) (tx : Nat)
deriving DecidableEq, Repr

/-- Embeds `Transaction::id` from `src/transaction.rs`: the client id of the
transaction. -/
def Transaction.id : Transaction → Nat
  | .deposit c _ _ => c
  | .withdrawal c _ _ => c
  | .dispute c _ => c
  | .resolve c _ => c
  | .chargeback c _ => c

/-- Association-list lookup, embedding `HashMap::get` / `HashMap::get_mut`. -/
def alistFind {α : Type} : List (Nat × α) → Nat → Option α
  | [], _ => none
  | e :: rest, key => if e.fst = key then some e.snd else alistFind rest key

/-- Association-list store, embedding `HashMap::insert` (overwrite the entry
for the key if present, otherwise add it) and the write-back of a
`get_mut` mutation. -/
def alistSet {α : Type} : List (Nat × α) → Nat → α → List (Nat × α)
  | [], key, v => [(key, v)]
  | e :: rest, key, v =>
      if e.fst = key then (key, v) :: rest else e :: alistSet rest key v

/-- Embeds `AccountState` from `src/account.rs`. -/
structure AccountState where
  held : Int
  total : Int
  chargebacks : Nat
  deposits : List (Nat × DepositState)
deriving DecidableEq, Repr

/-- Embeds `AccountState::available`: `total - held`. -/
def AccountState.available (s : AccountState) : Int :=
  s.total - s.held

/-- Embeds `AccountState::locked`: `chargebacks != 0`. -/
def AccountState.locked (s : AccountState) : Bool :=
  s.chargebacks != 0

/-- Embeds `AccountState::new`: the empty account. -/
def AccountState.new : AccountState :=
  { held := 0, total := 0, chargebacks := 0, deposits := [] }

/-- Embeds `AccountState::transact` from `src/account.rs`, branch by branch:
deposit and withdrawal early-return when locked; dispute sets the record's
dispute flag and adds its amount to `held`; resolve clears the flag, adds the
amount to `total` and subtracts it from `held`; chargeback, when the record is
disputed, sets its chargeback flag and increments the counter. -/
def AccountState.transact (s : AccountState) (t : Transaction) : AccountState :=
  match t with
  | .deposit _ txId a =>
      if s.locked then s
      else { s with total := s.total + a,
                    deposits := alistSet s.deposits txId (DepositState.new a) }
  | .withdrawal _ _ a =>
      if s.locked then s
      else if s.available > a then { s with total := s.total - a } else s
  | .dispute _ txId =>
      match alistFind s.deposits txId with
      | some d =>
          { s with held := s.held + d.amount,
                   deposits := alistSet s.deposits txId { d with dispute := true } }
      | none => s
  | .resolve _ txId =>
      match alistFind s.deposits txId with
      | some d =>
          { s with total := s.total + d.amount,
                   held := s.held - d.amount,
                   deposits := alistSet s.deposits txId { d with dispute := false } }
      | none => s
  | .chargeback _ txId =>
      match alistFind s.deposits txId with
      | some d =>
          if d.dispute then
            { s with chargebacks := s.chargebacks + 1,
                     deposits := alistSet s.deposits txId { d with chargeback := true } }
          else s
      | none => s

/-- Folds `AccountState::transact` over an input sequence, modelling one
ingestion run against a single account. -/
def applyAll (s : AccountState) (ts : List Transaction) : AccountState :=
  ts.foldl AccountState.transact s

/-- Embeds `AccountSystem` from `src/system.rs`: the client-id-to-account
registry of one shard. -/
structure AccountSystem where
  accounts : List (Nat × AccountState)
deriving DecidableEq, Repr

/-- Embeds `AccountSystem::transact`: look the client's account up, creating an
empty one on first reference, and delegate to `AccountState::transact`. -/
def AccountSystem.transact (sys : AccountSystem) (t : Transaction) : AccountSystem :=
  match alistFind sys.accounts t.id with
  | some a => { accounts := alistSet sys.accounts t.id (a.transact t) }
  | none => { accounts := alistSet sys.accounts t.id (AccountState.new.transact t) }

/-- Modelled from the spec: the consistent-hash ring used by
`ShardedAccountSystem` comes from the external `hashring` crate, whose source
is not part of this repository.  The spec requires only that the ring be a
deterministic pure structure: built once from the shard indices `0..shards`,
queried with the big-endian bytes of the client id, and returning `none`
exactly when the ring is empty.  We model the ring as a list of
(hash-of-node, node) pairs kept sorted by hash, with lookup by a fixed
deterministic FNV-style byte hash: the owning node of a key is the first node
whose hash is at least the key's hash, wrapping around to the first entry. -/
def hashBytes (bs : List Nat) : Nat :=
  bs.foldl (fun acc b => ((acc ^^^ (b % 256)) * 1099511628211) % 2 ^ 64)
    14695981039346656037

/-- Modelled from the spec: the big-endian byte representation of a `u16`
client id, as produced by `u16::to_be_bytes` in `ShardedAccountSystem::transact`. -/
def beBytes (c : Nat) : List Nat :=
  [c / 256 % 256, c % 256]

/-- Modelled from the spec: a consistent-hash ring entry list sorted by node
hash (see `hashBytes` for the provenance note). -/
structure HashRing where
  entries : List (Nat × Nat)
deriving DecidableEq, Repr

/-- Insertion into the hash-sorted entry list of the modelled ring. -/
def insertEntry : List (Nat × Nat) → Nat × Nat → List (Nat × Nat)
  | [], e => [e]
  | x :: rest, e => if e.fst ≤ x.fst then e :: x :: rest else x :: insertEntry rest e

/-- Modelled from the spec: `HashRing::add` places a node on the ring at the
position given by the hash of its bytes. -/
def HashRing.add (r : HashRing) (node : Nat) : HashRing :=
  { entries := insertEntry r.entries (hashBytes (beBytes node), node) }

/-- Modelled from the spec: `HashRing::get` returns `none` on an empty ring,
otherwise the first node clockwise from the key's hash. -/
def HashRing.get (r : HashRing) (key : List Nat) : Option Nat :=
  match r.entries.find? (fun e => decide (hashBytes key ≤ e.fst)) with
  | some e => some e.snd
  | none => Option.map (fun e : Nat × Nat => e.snd) r.entries.head?

/-- Embeds `ShardedAccountSystem` from `src/system.rs`: the ring plus one
`AccountSystem` per shard. -/
structure ShardedAccountSystem where
  ring : HashRing
  systems : List AccountSystem
deriving DecidableEq, Repr

/-- Embeds the loop of `ShardedAccountSystem::new`: push an empty
`AccountSystem` and add the shard index to the ring, for each index below
`shards`. -/
def ShardedAccountSystem.new (shards : Nat) : ShardedAccountSystem :=
  { ring := (List.range shards).foldl HashRing.add { entries := [] },
    systems := (List.range shards).map (fun _ => { accounts := [] }) }

/-- The shard lookup performed inside `ShardedAccountSystem::transact`:
`self.ring.get(&id.to_be_bytes())`. -/
def ShardedAccountSystem.route (sys : ShardedAccountSystem) (client : Nat) : Option Nat :=
  sys.ring.get (beBytes client)

/-- In-place update of the shard vector, embedding `self.systems[*shard].transact(..)`. -/
def listModify : List AccountSystem → Nat → Transaction → List AccountSystem
  | [], _, _ => []
  | x :: rest, 0, t => x.transact t :: rest
  | x :: rest, Nat.succ n, t => x :: listModify rest n t

/-- Embeds `ShardedAccountSystem::transact`: route by the transaction's client
id and delegate to that shard's `AccountSystem`; when the ring is empty the
transaction is dropped. -/
def ShardedAccountSystem.transact (sys : ShardedAccountSystem) (t : Transaction) :
    ShardedAccountSystem :=
  match sys.route t.id with
  | some shard => { sys with systems := listModify sys.systems shard t }
  | none => sys

/-- The dispute-stage transactions: `Dispute`, `Resolve` and `Chargeback`,
whose branches of `AccountState::transact` never read `locked()`. -/
def Transaction.isDisputeLike : Transaction → Bool
  | .dispute _ _ => true
  | .resolve _ _ => true
  | .chargeback _ _ => true
  | .deposit _ _ _ => false
  | .withdrawal _ _ _ => false

/-! ### Helper lemmas -/

/-- Looking a key up right after storing it yields the stored value. -/
theorem alistFind_alistSet_self {α : Type} (l : List (Nat × α)) (k : Nat) (v : α) :
    alistFind (alistSet l k v) k = some v := by
  induction l with
  | nil => simp [alistSet, alistFind]
  | cons e rest ih =>
      by_cases h : e.fst = k
      · simp [alistSet, alistFind, h]
      · simp [alistSet, alistFind, h, ih]

/-- No branch of `AccountState::transact` ever decreases the chargeback
counter. -/
theorem chargebacks_mono (s : AccountState) (t : Transaction) :
    s.chargebacks ≤ (s.transact t).chargebacks := by
  cases t with
  | deposit c txId a =>
      by_cases hl : s.locked <;> simp [AccountState.transact, hl]
  | withdrawal c txId a =>
      by_cases hl : s.locked
      · simp [AccountState.transact, hl]
      · by_cases hw : s.available > a <;> simp [AccountState.transact, hl, hw]
  | dispute c txId =>
      cases h : alistFind s.deposits txId <;> simp [AccountState.transact, h]
  | resolve c txId =>
      cases h : alistFind s.deposits txId <;> simp [AccountState.transact, h]
  | chargeback c txId =>
      cases h : alistFind s.deposits txId with
      | none => simp [AccountState.transact, h]
      | some d =>
          by_cases hd : d.dispute <;> simp [AccountState.transact, h, hd]

/-- Once an account is locked it stays locked for the rest of the run. -/
theorem locked_mono_run (s : AccountState) (ts : List Transaction)
    (h : s.locked = true) : (applyAll s ts).locked = true := by
  induction ts generalizing s with
  | nil => exact h
  | cons t rest ih =>
      apply ih
      have h1 := chargebacks_mono s t
      have h2 : s.chargebacks ≠ 0 := by
        simpa [AccountState.locked] using h
      simp only [AccountState.locked, bne_iff_ne, ne_eq, decide_eq_true_eq]
      omega

/-! ### Claim theorems -/

/-- C1, counterexample: after a single deposit of 100 under tx 0 the record
exists with `dispute = false`, yet `Resolve(0)` is not a no-op — the code's
resolve branch never checks the dispute flag, so it adds the amount to `total`
and subtracts it from `held` anyway. -/
theorem C1_counterexample :
    alistFind ((AccountState.new.transact (Transaction.deposit 0 0 100)).deposits) 0
      = some (DepositState.new 100) ∧
    (DepositState.new 100).dispute = false ∧
    (AccountState.new.transact (Transaction.deposit 0 0 100)).transact (Transaction.resolve 0 0)
      ≠ AccountState.new.transact (Transaction.deposit 0 0 100) := by
  decide

/-- C1, amended: `Resolve(tx)` is a no-op when `tx` is absent from the deposit
records; when the record exists — whether or not its dispute flag is set — the
operation sets `dispute := false`, increases `total` by the record's amount and
decreases `held` by the record's amount. -/
theorem C1_resolve_amended (s : AccountState) (c txId : Nat) :
    (alistFind s.deposits txId = none → s.transact (Transaction.resolve c txId) = s) ∧
    (∀ d : DepositState, alistFind s.deposits txId = some d →
      s.transact (Transaction.resolve c txId) =
        { s with total := s.total + d.amount,
                 held := s.held - d.amount,
                 deposits := alistSet s.deposits txId { d with dispute := false } }) := by
  constructor
  · intro h
    simp [AccountState.transact, h]
  · intro d h
    simp [AccountState.transact, h]

/-- C1, witness: resolving the undisputed deposit of 100 yields total 200. -/
theorem C1_witness :
    ((AccountState.new.transact (Transaction.deposit 0 0 100)).transact
      (Transaction.resolve 0 0)).total = 200 := by
  have h := (C1_resolve_amended (AccountState.new.transact (Transaction.deposit 0 0 100)) 0 0).2
    (DepositState.new 100) (by decide)
  rw [h]
  decide

/-- C2, counterexample: disputing the deposit of 100 leaves `total` at 100 —
the code's dispute branch only adds the amount to `held` and never decrements
`total`, contrary to the claim that total decreases by the amount. -/
theorem C2_counterexample :
    alistFind ((AccountState.new.transact (Transaction.deposit 0 0 100)).deposits) 0
      = some (DepositState.new 100) ∧
    ¬ ((AccountState.new.transact (Transaction.deposit 0 0 100)).transact
        (Transaction.dispute 0 0)).total
      = (AccountState.new.transact (Transaction.deposit 0 0 100)).total - 100 := by
  decide

/-- C2, amended: `Dispute(tx)` on a present record sets its dispute flag and
increments `held` by the record's amount while leaving `total` unchanged, so
`available` decreases by the amount. -/
theorem C2_dispute_amended (s : AccountState) (c txId : Nat) (d : DepositState)
    (h : alistFind s.deposits txId = some d) :
    s.transact (Transaction.dispute c txId) =
      { s with held := s.held + d.amount,
               deposits := alistSet s.deposits txId { d with dispute := true } } := by
  simp [AccountState.transact, h]

/-- C2, witness: after deposit 100 and dispute, total is still 100. -/
theorem C2_witness :
    ((AccountState.new.transact (Transaction.deposit 0 0 100)).transact
      (Transaction.dispute 0 0)).total = 100 := by
  have h := C2_dispute_amended (AccountState.new.transact (Transaction.deposit 0 0 100)) 0 0
    (DepositState.new 100) (by decide)
  rw [h]
  decide

/-- C3, counterexample: deposit 100, dispute it, charge it back (counter = 1);
a second chargeback with no intervening dispute raises the counter to 2, so it
is neither a no-op nor blocked — the chargeback branch leaves the dispute flag
set, so the transition re-fires. -/
theorem C3_counterexample :
    (applyAll AccountState.new
      [Transaction.deposit 0 0 100, Transaction.dispute 0 0,
        Transaction.chargeback 0 0]).chargebacks = 1 ∧
    ((applyAll AccountState.new
      [Transaction.deposit 0 0 100, Transaction.dispute 0 0,
        Transaction.chargeback 0 0]).transact (Transaction.chargeback 0 0)).chargebacks = 2 := by
  decide

/-- C3, amended: because a chargeback leaves the record's dispute flag set, a
second `Chargeback(tx)` with no intervening `Dispute(tx)` fires again: two
consecutive chargebacks of a disputed record raise the counter by two. -/
theorem C3_chargeback_refire (s : AccountState) (c txId : Nat) (d : DepositState)
    (h : alistFind s.deposits txId = some d) (hd : d.dispute = true) :
    ((s.transact (Transaction.chargeback c txId)).transact
      (Transaction.chargeback c txId)).chargebacks = s.chargebacks + 2 := by
  have h1 : s.transact (Transaction.chargeback c txId) =
      { s with chargebacks := s.chargebacks + 1,
               deposits := alistSet s.deposits txId { d with chargeback := true } } := by
    simp [AccountState.transact, h, hd]
  rw [h1]
  simp [AccountState.transact, alistFind_alistSet_self, hd]

/-- C3, witness: deposit, dispute, then two chargebacks give counter 2. -/
theorem C3_witness :
    ((((AccountState.new.transact (Transaction.deposit 0 0 100)).transact
      (Transaction.dispute 0 0)).transact (Transaction.chargeback 0 0)).transact
      (Transaction.chargeback 0 0)).chargebacks = 2 := by
  have h := C3_chargeback_refire
    ((AccountState.new.transact (Transaction.deposit 0 0 100)).transact (Transaction.dispute 0 0))
    0 0 { amount := 100, dispute := true, chargeback := false } (by decide) (by decide)
  rw [h]
  decide

/-- C4: on an unlocked account a withdrawal takes effect — `total` drops by the
amount — exactly when the amount is strictly below `available()`; otherwise the
state is unchanged, and in particular withdrawing the full available balance is
rejected. -/
theorem C4_withdrawal (s : AccountState) (c txId : Nat) (a : Int)
    (hl : s.locked = false) :
    (s.available > a →
      s.transact (Transaction.withdrawal c txId a) = { s with total := s.total - a }) ∧
    (¬ s.available > a → s.transact (Transaction.withdrawal c txId a) = s) ∧
    s.transact (Transaction.withdrawal c txId s.available) = s := by
  refine ⟨?_, ?_, ?_⟩
  · intro h
    simp [AccountState.transact, hl, h]
  · intro h
    simp [AccountState.transact, hl, h]
  · simp [AccountState.transact, hl]

/-- C4, witness: deposit 100 then withdraw exactly 100 — rejected, state
unchanged. -/
theorem C4_witness :
    (AccountState.new.transact (Transaction.deposit 0 0 100)).transact
      (Transaction.withdrawal 0 1 100)
      = AccountState.new.transact (Transaction.deposit 0 0 100) :=
  (C4_withdrawal (AccountState.new.transact (Transaction.deposit 0 0 100)) 0 1 100
    (by decide)).2.1 (by decide)

/-- C5: on a locked account, deposits and withdrawals are exact no-ops, while
the dispute-stage transitions (`Dispute`, `Resolve`, `Chargeback`) never
consult the lock: their effect on `held`, `total` and the deposit records, and
the amount they add to the chargeback counter, are the same for every value of
the counter (hence the same as on an unlocked account with otherwise equal
state). -/
theorem C5_locked_behavior (s : AccountState) (c txId : Nat) (a : Int)
    (hl : s.locked = true) :
    s.transact (Transaction.deposit c txId a) = s ∧
    s.transact (Transaction.withdrawal c txId a) = s ∧
    (∀ (t : Transaction) (m : Nat), t.isDisputeLike = true →
      (AccountState.transact { s with chargebacks := m } t).held = (s.transact t).held ∧
      (AccountState.transact { s with chargebacks := m } t).total = (s.transact t).total ∧
      (AccountState.transact { s with chargebacks := m } t).deposits
        = (s.transact t).deposits ∧
      (AccountState.transact { s with chargebacks := m } t).chargebacks + s.chargebacks
        = (s.transact t).chargebacks + m) := by
  refine ⟨?_, ?_, ?_⟩
  · simp [AccountState.transact, hl]
  · simp [AccountState.transact, hl]
  · intro t m ht
    cases t with
    | deposit c2 tx2 a2 => simp [Transaction.isDisputeLike] at ht
    | withdrawal c2 tx2 a2 => simp [Transaction.isDisputeLike] at ht
    | dispute c2 tx2 =>
        cases hfind : alistFind s.deposits tx2 with
        | none => simp [AccountState.transact, hfind, Nat.add_comm]
        | some d => simp [AccountState.transact, hfind, Nat.add_comm]
    | resolve c2 tx2 =>
        cases hfind : alistFind s.deposits tx2 with
        | none => simp [AccountState.transact, hfind, Nat.add_comm]
        | some d => simp [AccountState.transact, hfind, Nat.add_comm]
    | chargeback c2 tx2 =>
        cases hfind : alistFind s.deposits tx2 with
        | none => simp [AccountState.transact, hfind, Nat.add_comm]
        | some d =>
            by_cases hd : d.dispute
            · refine ⟨?_, ?_, ?_, ?_⟩ <;> simp [AccountState.transact, hfind, hd] <;> omega
            · simp [AccountState.transact, hfind, hd, Nat.add_comm]

/-- C5, witness: on the locked account obtained by deposit, dispute,
chargeback, a further deposit is a no-op. -/
theorem C5_witness :
    (applyAll AccountState.new
      [Transaction.deposit 0 0 100, Transaction.dispute 0 0,
        Transaction.chargeback 0 0]).transact (Transaction.deposit 0 1 50)
      = applyAll AccountState.new
          [Transaction.deposit 0 0 100, Transaction.dispute 0 0,
            Transaction.chargeback 0 0] :=
  (C5_locked_behavior (applyAll AccountState.new
      [Transaction.deposit 0 0 100, Transaction.dispute 0 0, Transaction.chargeback 0 0])
    0 1 50 (by decide)).1

/-- C6: `locked()` holds exactly when the chargeback counter is positive, no
transition ever decreases the counter, and once a run of transactions from the
fresh account reaches a locked state every extension of the run stays
locked. -/
theorem C6_locked_invariant :
    (∀ s : AccountState, s.locked = true ↔ 0 < s.chargebacks) ∧
    (∀ (s : AccountState) (t : Transaction), s.chargebacks ≤ (s.transact t).chargebacks) ∧
    (∀ pre post : List Transaction,
      (applyAll AccountState.new pre).locked = true →
      (applyAll AccountState.new (pre ++ post)).locked = true) := by
  refine ⟨?_, chargebacks_mono, ?_⟩
  · intro s
    simp only [AccountState.locked, bne_iff_ne, ne_eq]
    omega
  · intro pre post h
    rw [applyAll, List.foldl_append]
    exact locked_mono_run _ post h

/-- C6, witness: a run that charges back stays locked after more input. -/
theorem C6_witness :
    (applyAll AccountState.new
      ([Transaction.deposit 0 0 100, Transaction.dispute 0 0, Transaction.chargeback 0 0]
        ++ [Transaction.deposit 0 1 50, Transaction.withdrawal 0 2 10])).locked = true :=
  C6_locked_invariant.2.2
    [Transaction.deposit 0 0 100, Transaction.dispute 0 0, Transaction.chargeback 0 0]
    [Transaction.deposit 0 1 50, Transaction.withdrawal 0 2 10] (by decide)

/-- C7: when `tx` is not a key of the deposit-record map, `Dispute`, `Resolve`
and `Chargeback` leave the whole account state unchanged; moreover withdrawals
never create deposit records (so a tx id that only ever named a withdrawal can
never be found), and `transact` is a total function — it never fails. -/
theorem C7_unknown_tx_noop (s : AccountState) (c txId : Nat) (a : Int)
    (h : alistFind s.deposits txId = none) :
    s.transact (Transaction.dispute c txId) = s ∧
    s.transact (Transaction.resolve c txId) = s ∧
    s.transact (Transaction.chargeback c txId) = s ∧
    (s.transact (Transaction.withdrawal c txId a)).deposits = s.deposits := by
  refine ⟨?_, ?_, ?_, ?_⟩
  · simp [AccountState.transact, h]
  · simp [AccountState.transact, h]
  · simp [AccountState.transact, h]
  · by_cases hl : s.locked
    · simp [AccountState.transact, hl]
    · by_cases hw : s.available > a <;> simp [AccountState.transact, hl, hw]

/-- C7, witness: disputing unknown tx 3 after two deposits changes nothing. -/
theorem C7_witness :
    ((AccountState.new.transact (Transaction.deposit 0 0 100)).transact
      (Transaction.deposit 0 1 100)).transact (Transaction.dispute 0 3)
      = (AccountState.new.transact (Transaction.deposit 0 0 100)).transact
          (Transaction.deposit 0 1 100) :=
  (C7_unknown_tx_noop ((AccountState.new.transact (Transaction.deposit 0 0 100)).transact
      (Transaction.deposit 0 1 100)) 0 3 0 (by decide)).1

/-- C8: a deposit on an unlocked account whose tx id already has a record
silently overwrites it with a fresh record (the new amount, both flags
cleared) and still adds the amount to `total`. -/
theorem C8_deposit_overwrite (s : AccountState) (c txId : Nat) (a : Int)
    (d : DepositState) (hl : s.locked = false) (h : alistFind s.deposits txId = some d) :
    s.transact (Transaction.deposit c txId a) =
      { s with total := s.total + a,
               deposits := alistSet s.deposits txId (DepositState.new a) } ∧
    alistFind (s.transact (Transaction.deposit c txId a)).deposits txId
      = some (DepositState.new a) := by
  have h1 : s.transact (Transaction.deposit c txId a) =
      { s with total := s.total + a,
               deposits := alistSet s.deposits txId (DepositState.new a) } := by
    simp [AccountState.transact, hl]
  refine ⟨h1, ?_⟩
  rw [h1]
  exact alistFind_alistSet_self s.deposits txId (DepositState.new a)

/-- C8, witness: a second deposit of 25 under the reused tx id 0 replaces the
earlier 100-record with a fresh 25-record. -/
theorem C8_witness :
    alistFind ((AccountState.new.transact (Transaction.deposit 0 0 100)).transact
      (Transaction.deposit 0 0 25)).deposits 0 = some (DepositState.new 25) :=
  (C8_deposit_overwrite (AccountState.new.transact (Transaction.deposit 0 0 100)) 0 0 25
    (DepositState.new 100) (by decide) (by decide)).2

/-- C9: shard routing is a pure function of the client id and the ring, two
routers built with the same shard count route every client identically
(repeated calls trivially agree since the route is a function), `transact`
never mutates the ring — so the selected shard is stable across a run — and a
routed transaction is delegated exactly to the shard the route selects. -/
theorem C9_routing_deterministic (n c : Nat) (sys sys2 : ShardedAccountSystem)
    (t : Transaction) :
    (ShardedAccountSystem.new n).route c = (ShardedAccountSystem.new n).route c ∧
    (sys.ring = sys2.ring → sys.route c = sys2.route c) ∧
    (sys.transact t).ring = sys.ring ∧
    (∀ shard : Nat, sys.route t.id = some shard →
      (sys.transact t).systems = listModify sys.systems shard t) := by
  refine ⟨rfl, ?_, ?_, ?_⟩
  · intro h
    simp [ShardedAccountSystem.route, h]
  · cases h : sys.route t.id <;> simp [ShardedAccountSystem.transact, h]
  · intro shard h
    simp [ShardedAccountSystem.transact, h]

/-- C9, witness: with 4 shards, client 7 routes to shard 3, and a deposit for
client 7 is delegated to that shard's `AccountSystem`. -/
theorem C9_witness :
    ((ShardedAccountSystem.new 4).transact (Transaction.deposit 7 0 5)).systems
      = listModify (ShardedAccountSystem.new 4).systems 3 (Transaction.deposit 7 0 5) :=
  (C9_routing_deterministic 4 7 (ShardedAccountSystem.new 4) (ShardedAccountSystem.new 4)
    (Transaction.deposit 7 0 5)).2.2.2 3 (by decide)

/-- C10: on a record that was disputed and then charged back (dispute flag
still set, chargeback flag set), a later `Resolve(tx)` is not a no-op: the
chargeback flag never blocks it, so it clears the dispute flag, adds the
record's amount to `total` and subtracts it from `held`. -/
theorem C10_resolve_after_chargeback (s : AccountState) (c txId : Nat)
    (d : DepositState) (h : alistFind s.deposits txId = some d)
    (hd : d.dispute = true) (hc : d.chargeback = true) :
    s.transact (Transaction.resolve c txId) ≠ s ∧
    (s.transact (Transaction.resolve c txId)).total = s.total + d.amount ∧
    (s.transact (Transaction.resolve c txId)).held = s.held - d.amount ∧
    alistFind (s.transact (Transaction.resolve c txId)).deposits txId
      = some { d with dispute := false } := by
  have h1 : s.transact (Transaction.resolve c txId) =
      { s with total := s.total + d.amount,
               held := s.held - d.amount,
               deposits := alistSet s.deposits txId { d with dispute := false } } := by
    simp [AccountState.transact, h]
  have h2 : alistFind (s.transact (Transaction.resolve c txId)).deposits txId
      = some { d with dispute := false } := by
    rw [h1]
    exact alistFind_alistSet_self s.deposits txId _
  refine ⟨?_, by rw [h1], by rw [h1], h2⟩
  intro heq
  rw [heq, h] at h2
  have h3 : d = { d with dispute := false } := Option.some.inj h2
  have h4 := congrArg DepositState.dispute h3
  rw [hd] at h4
  simp at h4

/-- C10, witness: after deposit 100, dispute, chargeback, resolving tx 0
raises total by 100. -/
theorem C10_witness :
    ((applyAll AccountState.new
      [Transaction.deposit 0 0 100, Transaction.dispute 0 0,
        Transaction.chargeback 0 0]).transact (Transaction.resolve 0 0)).total
      = (applyAll AccountState.new
          [Transaction.deposit 0 0 100, Transaction.dispute 0 0,
            Transaction.chargeback 0 0]).total + 100 :=
  (C10_resolve_after_chargeback (applyAll AccountState.new
      [Transaction.deposit 0 0 100, Transaction.dispute 0 0, Transaction.chargeback 0 0])
    0 0 { amount := 100, dispute := true, chargeback := true }
    (by decide) (by decide) (by decide)).2.1

end Track
